import Mathlib

/-!
Shallow embedding of the ride-request synchronization logic of
`src/src/pages/Driver.tsx` (the Driver dashboard page).

Statuses are modelled as runtime strings: TypeScript union types are erased
at runtime, and the data flowing through `localStorage` and the remote store
is untyped JSON, so the string model is the faithful one.  Dates and
timestamps are opaque strings; the formatting functions
(`toLocaleDateString`, `toLocaleTimeString`) and the current instant are
passed in as parameters.  Remote calls are represented by their observable
inputs and outputs: the query result is an `Except` (failure or rows), the
existence check is a boolean function on ids, and the inserts/updates the
page issues are returned as data.
-/

namespace Driver

/-- `LocalRideRequest` (Driver.tsx lines 25-36): the local/display shape.
`status` is a runtime string; `additionalNotes` is optional. -/
structure LocalRideRequest where
  id : String
  studentName : String
  studentEmail : String
  pickupLocation : String
  destination : String
  date : String
  time : String
  status : String
  disabilityType : String
  additionalNotes : Option String
  deriving Repr, DecidableEq

/-- An untyped entry as read from `localStorage` by `JSON.parse` in
`loadRideRequests` (line 99): every field other than `id` may be absent
(`none` models a missing/undefined property). -/
structure StoredRideRequest where
  id : String
  studentName : Option String
  studentEmail : Option String
  pickupLocation : Option String
  destination : Option String
  date : Option String
  time : Option String
  status : Option String
  disabilityType : Option String
  additionalNotes : Option String
  deriving Repr, DecidableEq

/-- A row of the remote `ride_requests` table (spec section 6; read in
`loadRideRequests` lines 70-89, written at lines 116-127). -/
structure DbRideRequest where
  id : String
  student_id : String
  driver_id : Option String
  pickup_location : String
  destination : String
  status : String
  created_at : Option String
  updated_at : Option String
  deriving Repr, DecidableEq

/-- The session user exposed by `useAuth` (Driver.tsx lines 39, 167, 194-195). -/
structure AuthUser where
  id : String
  first_name : String
  last_name : String
  email : String
  deriving Repr, DecidableEq

/-- The three user actions of `handleRideAction` (line 141). -/
inductive RideAction where
  | accept
  | decline
  | complete
  deriving Repr, DecidableEq

/-- JavaScript `x || d` on a string-or-undefined value: `undefined` and the
empty string are falsy, so both are replaced by the default. -/
def jsOrDefault : Option String → String → String
  | some s, d => if s = "" then d else s
  | none, d => d

/-- `validateStatus` (Driver.tsx lines 43-48): clamp an arbitrary status
string to the closed enumeration, defaulting to "pending". -/
def validateStatus (status : String) : String :=
  if status = "accepted" then "accepted"
  else if status = "completed" then "completed"
  else if status = "declined" then "declined"
  else "pending"

/-- Body of the `map` in `processRideRequests` (lines 52-63): normalize one
stored entry, filling defaults for missing fields.  `nowDate`/`nowTime` are
`new Date().toLocaleDateString()` / `.toLocaleTimeString()`. -/
def processRideRequest (nowDate nowTime : String) (request : StoredRideRequest) :
    LocalRideRequest where
  id := request.id
  studentName := jsOrDefault request.studentName "Unknown"
  studentEmail := jsOrDefault request.studentEmail "unknown@email.com"
  pickupLocation := jsOrDefault request.pickupLocation ""
  destination := jsOrDefault request.destination ""
  date := jsOrDefault request.date nowDate
  time := jsOrDefault request.time nowTime
  status := validateStatus (jsOrDefault request.status "pending")
  disabilityType := jsOrDefault request.disabilityType "Not specified"
  additionalNotes := request.additionalNotes

/-- `processRideRequests` (Driver.tsx lines 51-64). -/
def processRideRequests (nowDate nowTime : String)
    (storedRequests : List StoredRideRequest) : List LocalRideRequest :=
  storedRequests.map (processRideRequest nowDate nowTime)

/-- Body of the `map` over `dbRequests` in `loadRideRequests` (lines 78-89):
convert a remote row to the local display shape.  `formatDate`/`formatTime`
model `new Date(x).toLocaleDateString()` / `.toLocaleTimeString()`, and
`nowTs` models `Date.now()` used when `created_at` is falsy. -/
def formatDbRequest (formatDate formatTime : String → String) (nowTs : String)
    (dbReq : DbRideRequest) : LocalRideRequest where
  id := dbReq.id
  studentName := dbReq.student_id
  studentEmail := dbReq.student_id ++ "@example.com"
  pickupLocation := dbReq.pickup_location
  destination := dbReq.destination
  date := formatDate (jsOrDefault dbReq.created_at nowTs)
  time := formatTime (jsOrDefault dbReq.created_at nowTs)
  status := validateStatus dbReq.status
  disabilityType := "Not specified"
  additionalNotes := some "From database"

/-- The `dbRequest` record built for the backfill insert in
`loadRideRequests` (lines 116-125): `student_id` is the email prefix before
the first "@", `driver_id` is null, "declined" is mapped to "rejected", and
both timestamps are the current instant `nowISO`. -/
def mkDbInsert (nowISO : String) (request : LocalRideRequest) : DbRideRequest where
  id := request.id
  student_id := (request.studentEmail.splitOn "@").headD ""
  driver_id := none
  pickup_location := request.pickupLocation
  destination := request.destination
  status := if request.status = "declined" then "rejected" else request.status
  created_at := some nowISO
  updated_at := some nowISO

/-- The backfill `for` loop of `loadRideRequests` (lines 106-129): for each
entry, check whether a remote row with its id exists (`hasId`); if not,
insert a derived row.  A successful insert makes the id exist remotely, so
the existence predicate grows as the loop proceeds. -/
def backfillLoop (nowISO : String) :
    List LocalRideRequest → (String → Bool) → List DbRideRequest
  | [], _ => []
  | r :: rest, hasId =>
    if hasId r.id then backfillLoop nowISO rest hasId
    else
      mkDbInsert nowISO r ::
        backfillLoop nowISO rest (fun i => if i = r.id then true else hasId i)

/-- The observable outcome of `loadRideRequests`: the list passed to
`setRideRequests` and the inserts issued to the remote store. -/
structure LoadResult where
  displayed : List LocalRideRequest
  inserts : List DbRideRequest
  deriving Repr, DecidableEq

/-- `loadRideRequests` (Driver.tsx lines 67-134).  `queryResult` is the
outcome of the initial `select('*')`: `.error ()` covers both a returned
error and a thrown exception (both reach the fallback, lines 94-96);
`.ok rows` is a successful query.  Only a successful query with at least one
row takes the remote branch (line 74); otherwise the `localStorage` content
`storedRequests` is normalized and displayed, and the backfill loop runs
when the normalized list is non-empty (line 104). -/
def loadRideRequests (formatDate formatTime : String → String)
    (nowDate nowTime nowTs nowISO : String) (remoteHasId : String → Bool)
    (queryResult : Except Unit (List DbRideRequest))
    (storedRequests : List StoredRideRequest) : LoadResult :=
  let fallback : LoadResult :=
    let typedRequests := processRideRequests nowDate nowTime storedRequests
    { displayed := typedRequests
      inserts :=
        if typedRequests.length > 0 then
          backfillLoop nowISO typedRequests remoteHasId
        else [] }
  match queryResult with
  | .ok dbRequests =>
    if dbRequests.length > 0 then
      { displayed := dbRequests.map (formatDbRequest formatDate formatTime nowTs)
        inserts := [] }
    else fallback
  | .error _ => fallback

/-- `newStatus` in `handleRideAction` (lines 144-146). -/
def actionToStatus : RideAction → String
  | .accept => "accepted"
  | .decline => "declined"
  | .complete => "completed"

/-- The action's name as interpolated into the toast text (line 177). -/
def actionName : RideAction → String
  | .accept => "accept"
  | .decline => "decline"
  | .complete => "complete"

/-- `statusForDb` in `handleRideAction` (line 161): the status sent to the
remote store, mapping the decline action to "rejected". -/
def actionToDbStatus : RideAction → String
  | .decline => "rejected"
  | .accept => "accepted"
  | .complete => "completed"

/-- `user?.id || null` (line 167): null when there is no session user, and
also when the user's id is the empty string (JavaScript falsiness). -/
def currentDriverId : Option AuthUser → Option String
  | some u => if u.id = "" then none else some u.id
  | none => none

/-- The `updatedRequests` computation of `handleRideAction` (lines 142-154):
replace the status of every entry whose id matches, immutably. -/
def applyRideAction (requestId : String) (action : RideAction)
    (requests : List LocalRideRequest) : List LocalRideRequest :=
  requests.map fun request =>
    if request.id = requestId then { request with status := actionToStatus action }
    else request

/-- A JSON value, as produced by `JSON.stringify` / consumed by
`JSON.parse`.  Objects are ordered key-value lists, matching JavaScript
property order. -/
inductive JsonVal where
  | str : String → JsonVal
  | arr : List JsonVal → JsonVal
  | obj : List (String × JsonVal) → JsonVal
  deriving Repr

/-- `JSON.stringify` of one `LocalRideRequest` (line 156): properties in
declaration order; a property whose value is `undefined` (an absent
`additionalNotes`) is dropped by `JSON.stringify`. -/
def encodeRequest (r : LocalRideRequest) : JsonVal :=
  .obj
    ([("id", .str r.id), ("studentName", .str r.studentName),
      ("studentEmail", .str r.studentEmail),
      ("pickupLocation", .str r.pickupLocation),
      ("destination", .str r.destination), ("date", .str r.date),
      ("time", .str r.time), ("status", .str r.status),
      ("disabilityType", .str r.disabilityType)] ++
      match r.additionalNotes with
      | some n => [("additionalNotes", .str n)]
      | none => [])

/-- `JSON.stringify(updatedRequests)` (line 156): a JSON array. -/
def encodeRequests (rs : List LocalRideRequest) : JsonVal :=
  .arr (rs.map encodeRequest)

/-- Reading a named property of a parsed JSON object (what every consumer of
the cached JSON does); `none` models `undefined`. -/
def lookupField (fields : List (String × JsonVal)) (k : String) : Option JsonVal :=
  (fields.find? fun p => p.1 = k).map (·.2)

/-- A parsed JSON value read as a string, `none` when absent or not a string. -/
def asString : Option JsonVal → Option String
  | some (.str s) => some s
  | _ => none

/-- Deserialize one cached entry back into the local shape, reading each
property by name; fails if a required string property is absent. -/
def decodeRequest : JsonVal → Option LocalRideRequest
  | .obj fields => do
    let id ← asString (lookupField fields "id")
    let studentName ← asString (lookupField fields "studentName")
    let studentEmail ← asString (lookupField fields "studentEmail")
    let pickupLocation ← asString (lookupField fields "pickupLocation")
    let destination ← asString (lookupField fields "destination")
    let date ← asString (lookupField fields "date")
    let time ← asString (lookupField fields "time")
    let status ← asString (lookupField fields "status")
    let disabilityType ← asString (lookupField fields "disabilityType")
    pure
      { id, studentName, studentEmail, pickupLocation, destination, date,
        time, status, disabilityType,
        additionalNotes := asString (lookupField fields "additionalNotes") }
  | _ => none

/-- Deserialize a parsed JSON array of cached entries. -/
def decodeList : List JsonVal → Option (List LocalRideRequest)
  | [] => some []
  | j :: rest =>
    match decodeRequest j, decodeList rest with
    | some r, some rs => some (r :: rs)
    | _, _ => none

/-- Deserialize the whole cached list (`JSON.parse` of the stored string,
then reading every entry). -/
def decodeRequests : JsonVal → Option (List LocalRideRequest)
  | .arr items => decodeList items
  | _ => none

/-- The remote update issued by `handleRideAction` (lines 163-170): the new
status, the stamped driver id and `updated_at`, and the id filter of the
`.eq('id', requestId)` clause. -/
structure DbUpdate where
  filterId : String
  status : String
  driver_id : Option String
  updated_at : String
  deriving Repr, DecidableEq

/-- Semantics of the remote store's update-by-id operation (spec section 6:
"update-by-id"; the page calls `update(...).eq('id', id)`): every row whose
id equals the filter gets the new status, driver id and `updated_at`; every
other row is untouched. -/
def applyDbUpdate (upd : DbUpdate) (table : List DbRideRequest) :
    List DbRideRequest :=
  table.map fun row =>
    if row.id = upd.filterId then
      { row with
        status := upd.status
        driver_id := upd.driver_id
        updated_at := some upd.updated_at }
    else row

/-- The observable outcome of `handleRideAction`: the new in-memory list
(also written to the local cache), the serialized cache content, the remote
update issued, and the toast shown to the user. -/
structure ActionResult where
  updatedRequests : List LocalRideRequest
  storedJson : JsonVal
  dbUpdate : DbUpdate
  toastTitle : String
  toastDescription : String

/-- `handleRideAction` (Driver.tsx lines 141-179).  `updateResult` is the
outcome of the awaited remote update; its failure is caught and only logged
(lines 171-173), so the result — including the toast (lines 175-178) — does
not depend on it. -/
def handleRideAction (user : Option AuthUser) (nowISO : String)
    (requestId : String) (action : RideAction)
    (rideRequests : List LocalRideRequest)
    (updateResult : Except Unit Unit) : ActionResult :=
  let updatedRequests := applyRideAction requestId action rideRequests
  let logLine : String :=
    match updateResult with
    | .ok _ => ""
    | .error _ => "Error updating ride request in database:"
  let _ := logLine
  { updatedRequests
    storedJson := encodeRequests updatedRequests
    dbUpdate :=
      { filterId := requestId
        status := actionToDbStatus action
        driver_id := currentDriverId user
        updated_at := nowISO }
    toastTitle := "Ride Request Updated"
    toastDescription := "Ride request has been " ++ actionName action ++ "ed." }

/-- Membership in the closed status enumeration of the local shape
(the union type at line 33). -/
def isValidStatus (s : String) : Bool :=
  s = "pending" || s = "accepted" || s = "completed" || s = "declined"

/-- A concrete pending request, used to instantiate witnesses and
counterexamples. -/
def sampleRequest : LocalRideRequest where
  id := "1"
  studentName := "Alice"
  studentEmail := "alice@example.com"
  pickupLocation := "Library"
  destination := "Dorm"
  date := "1/1/2025"
  time := "10:00:00 AM"
  status := "pending"
  disabilityType := "Not specified"
  additionalNotes := none

/-- A concrete remote row, used to instantiate witnesses. -/
def sampleDbRow : DbRideRequest where
  id := "7"
  student_id := "stu7"
  driver_id := none
  pickup_location := "Gate"
  destination := "Lab"
  status := "rejected"
  created_at := some "2025-01-01T00:00:00Z"
  updated_at := none

/-- A concrete stored (local-cache) entry with every optional field absent,
used to instantiate witnesses. -/
def sampleStored : StoredRideRequest where
  id := "9"
  studentName := none
  studentEmail := none
  pickupLocation := none
  destination := none
  date := none
  time := none
  status := none
  disabilityType := none
  additionalNotes := none

/-! ## Helper lemmas -/

/-- `validateStatus` always lands in the closed enumeration. -/
theorem validateStatus_mem (s : String) :
    isValidStatus (validateStatus s) = true := by
  unfold validateStatus
  split
  · decide
  · split
    · decide
    · split
      · decide
      · decide

/-- `validateStatus` only returns "declined" on the exact input "declined". -/
theorem validateStatus_eq_declined (s : String)
    (h : validateStatus s = "declined") : s = "declined" := by
  by_cases h1 : s = "accepted"
  · simp [validateStatus, h1] at h
  · by_cases h2 : s = "completed"
    · simp [validateStatus, h1, h2] at h
    · by_cases h3 : s = "declined"
      · exact h3
      · simp [validateStatus, h1, h2, h3] at h

/-- The backfill loop only depends on the existence predicate's values at
the ids of the remaining entries. -/
theorem backfillLoop_congr (nowISO : String) (reqs : List LocalRideRequest) :
    ∀ h1 h2 : String → Bool, (∀ r ∈ reqs, h1 r.id = h2 r.id) →
      backfillLoop nowISO reqs h1 = backfillLoop nowISO reqs h2 := by
  induction reqs with
  | nil => intro h1 h2 _; rfl
  | cons r rest ih =>
    intro h1 h2 hag
    have hr : h1 r.id = h2 r.id := hag r (by simp)
    simp only [backfillLoop, hr]
    by_cases hc : h2 r.id = true
    · simp only [hc, if_true]
      exact ih h1 h2 fun x hx => hag x (List.mem_cons_of_mem r hx)
    · simp only [Bool.not_eq_true] at hc
      simp only [hc, Bool.false_eq_true, if_false]
      have : backfillLoop nowISO rest (fun i => if i = r.id then true else h1 i)
          = backfillLoop nowISO rest (fun i => if i = r.id then true else h2 i) :=
        ih _ _ fun x hx => by
          by_cases hxr : x.id = r.id
          · simp [hxr]
          · simp [hxr]; exact hag x (List.mem_cons_of_mem r hx)
      rw [this]

/-- When the entry ids are pairwise distinct, the backfill loop issues
exactly one insert per entry whose id is not already remote. -/
theorem backfillLoop_eq_filter (nowISO : String) :
    ∀ (reqs : List LocalRideRequest) (hasId : String → Bool),
      ((reqs.map fun r => r.id).Nodup) →
      backfillLoop nowISO reqs hasId
        = ((reqs.filter fun r => !hasId r.id).map (mkDbInsert nowISO)) := by
  intro reqs
  induction reqs with
  | nil => intro hasId _; rfl
  | cons r rest ih =>
    intro hasId hnd
    rw [List.map_cons, List.nodup_cons] at hnd
    obtain ⟨hnotin, hrest⟩ := hnd
    simp only [backfillLoop, List.filter_cons]
    by_cases hc : hasId r.id = true
    · simp only [hc, if_true, Bool.not_true, Bool.false_eq_true, if_false]
      exact ih hasId hrest
    · simp only [Bool.not_eq_true] at hc
      simp only [hc, Bool.false_eq_true, if_false, Bool.not_false, if_true,
        List.map_cons]
      have hag : ∀ x ∈ rest,
          (fun i => if i = r.id then true else hasId i) x.id = hasId x.id := by
        intro x hx
        have hne : x.id ≠ r.id := fun he =>
          hnotin (he ▸ List.mem_map_of_mem (fun y => y.id) hx)
        simp [hne]
      rw [backfillLoop_congr nowISO rest _ hasId hag, ih hasId hrest]

/-- The backfill loop never inserts a row whose id the existence predicate
already reports as present. -/
theorem backfillLoop_skips_existing (nowISO : String) :
    ∀ (reqs : List LocalRideRequest) (hasId : String → Bool) (i : String),
      hasId i = true →
      ∀ ins ∈ backfillLoop nowISO reqs hasId, ins.id ≠ i := by
  intro reqs
  induction reqs with
  | nil =>
    intro hasId i _ ins hmem
    simp [backfillLoop] at hmem
  | cons r rest ih =>
    intro hasId i hi ins hmem
    simp only [backfillLoop] at hmem
    by_cases hc : hasId r.id = true
    · simp only [hc, if_true] at hmem
      exact ih hasId i hi ins hmem
    · simp only [Bool.not_eq_true] at hc
      simp only [hc, Bool.false_eq_true, if_false] at hmem
      rcases List.mem_cons.mp hmem with h | h
      · subst h
        intro he
        have hri : r.id = i := he
        rw [hri] at hc
        rw [hc] at hi
        exact Bool.false_ne_true hi
      · refine ih _ i ?_ ins h
        by_cases hir : i = r.id <;> simp [hir, hi]

/-- Deserializing the serialization of one entry gives it back. -/
theorem decodeRequest_encodeRequest (r : LocalRideRequest) :
    decodeRequest (encodeRequest r) = some r := by
  cases r with
  | mk id sn se pl de d t st dt an => cases an <;> rfl

/-- Deserializing the serialization of a list of entries gives it back. -/
theorem decodeRequests_encodeRequests (l : List LocalRideRequest) :
    decodeRequests (encodeRequests l) = some l := by
  induction l with
  | nil => rfl
  | cons r rest ih =>
    simp only [encodeRequests, decodeRequests, List.map_cons, decodeList,
      decodeRequest_encodeRequest]
    simp only [encodeRequests, decodeRequests] at ih
    rw [ih]

/-! ## Claim theorems -/

/-- C1: when the remote query succeeds with at least one row, the displayed
list is exactly the row-by-row mapping of the remote rows into the local
shape (studentName = student_id, studentEmail = student_id ++
"@example.com", date/time formatted from created_at, status validated,
disabilityType = "Not specified"), no inserts are issued, and the locally
cached list has no influence on the result. -/
theorem c1_remote_rows_govern_display (formatDate formatTime : String → String)
    (nowDate nowTime nowTs nowISO : String) (remoteHasId : String → Bool)
    (rows : List DbRideRequest) (stored stored' : List StoredRideRequest)
    (hrows : rows ≠ []) :
    loadRideRequests formatDate formatTime nowDate nowTime nowTs nowISO
        remoteHasId (.ok rows) stored
      = { displayed := rows.map (formatDbRequest formatDate formatTime nowTs)
          inserts := [] }
  ∧ loadRideRequests formatDate formatTime nowDate nowTime nowTs nowISO
        remoteHasId (.ok rows) stored
      = loadRideRequests formatDate formatTime nowDate nowTime nowTs nowISO
          remoteHasId (.ok rows) stored'
  ∧ ∀ row : DbRideRequest,
      (formatDbRequest formatDate formatTime nowTs row).studentName
          = row.student_id
      ∧ (formatDbRequest formatDate formatTime nowTs row).studentEmail
          = row.student_id ++ "@example.com"
      ∧ (formatDbRequest formatDate formatTime nowTs row).date
          = formatDate (jsOrDefault row.created_at nowTs)
      ∧ (formatDbRequest formatDate formatTime nowTs row).time
          = formatTime (jsOrDefault row.created_at nowTs)
      ∧ (formatDbRequest formatDate formatTime nowTs row).status
          = validateStatus row.status
      ∧ (formatDbRequest formatDate formatTime nowTs row).disabilityType
          = "Not specified" := by
  have hlen : rows.length > 0 := List.length_pos.mpr hrows
  refine ⟨?_, ?_, fun row => ⟨rfl, rfl, rfl, rfl, rfl, rfl⟩⟩
  · simp [loadRideRequests, hlen]
  · simp [loadRideRequests, hlen]

/-- C1 witness: the theorem instantiated at a one-row remote result. -/
theorem c1_remote_rows_govern_display_witness :
    ([sampleDbRow] : List DbRideRequest) ≠ []
  ∧ loadRideRequests id id "d" "t" "ts" "iso" (fun _ => false) (.ok [sampleDbRow])
        [sampleStored]
      = { displayed := [sampleDbRow].map (formatDbRequest id id "ts")
          inserts := [] } :=
  ⟨by simp [sampleDbRow],
    (c1_remote_rows_govern_display id id "d" "t" "ts" "iso" (fun _ => false)
      [sampleDbRow] [sampleStored] [] (by simp [sampleDbRow])).1⟩

/-- C2: when the remote query fails or returns zero rows, the displayed list
is the normalization of the locally cached list, and the normalizer fills
every missing field with its documented default ("Unknown",
"unknown@email.com", empty strings, the current date/time, "pending",
"Not specified"); a present but invalid status also normalizes to
"pending". -/
theorem c2_fallback_normalizes_cache (formatDate formatTime : String → String)
    (nowDate nowTime nowTs nowISO : String) (remoteHasId : String → Bool)
    (stored : List StoredRideRequest) :
    (loadRideRequests formatDate formatTime nowDate nowTime nowTs nowISO
        remoteHasId (.error ()) stored).displayed
      = processRideRequests nowDate nowTime stored
  ∧ (loadRideRequests formatDate formatTime nowDate nowTime nowTs nowISO
        remoteHasId (.ok []) stored).displayed
      = processRideRequests nowDate nowTime stored
  ∧ ∀ request : StoredRideRequest,
      (request.studentName = none →
        (processRideRequest nowDate nowTime request).studentName = "Unknown")
      ∧ (request.studentEmail = none →
        (processRideRequest nowDate nowTime request).studentEmail
          = "unknown@email.com")
      ∧ (request.pickupLocation = none →
        (processRideRequest nowDate nowTime request).pickupLocation = "")
      ∧ (request.destination = none →
        (processRideRequest nowDate nowTime request).destination = "")
      ∧ (request.date = none →
        (processRideRequest nowDate nowTime request).date = nowDate)
      ∧ (request.time = none →
        (processRideRequest nowDate nowTime request).time = nowTime)
      ∧ (request.status = none →
        (processRideRequest nowDate nowTime request).status = "pending")
      ∧ (∀ s, request.status = some s → s ≠ "accepted" → s ≠ "completed" →
          s ≠ "declined" →
          (processRideRequest nowDate nowTime request).status = "pending")
      ∧ (request.disabilityType = none →
        (processRideRequest nowDate nowTime request).disabilityType
          = "Not specified") := by
  refine ⟨by simp [loadRideRequests], by simp [loadRideRequests], fun request =>
    ⟨?_, ?_, ?_, ?_, ?_, ?_, ?_, ?_, ?_⟩⟩
  · intro h; simp [processRideRequest, h, jsOrDefault]
  · intro h; simp [processRideRequest, h, jsOrDefault]
  · intro h; simp [processRideRequest, h, jsOrDefault]
  · intro h; simp [processRideRequest, h, jsOrDefault]
  · intro h; simp [processRideRequest, h, jsOrDefault]
  · intro h; simp [processRideRequest, h, jsOrDefault]
  · intro h; simp [processRideRequest, h, jsOrDefault, validateStatus]
  · intro s hs h1 h2 h3
    by_cases he : s = ""
    · simp [processRideRequest, hs, he, jsOrDefault, validateStatus]
    · simp [processRideRequest, hs, he, jsOrDefault, validateStatus, h1, h2, h3]
  · intro h; simp [processRideRequest, h, jsOrDefault]

/-- C2 witness: the theorem instantiated at a cache entry with every
optional field absent. -/
theorem c2_fallback_normalizes_cache_witness :
    (loadRideRequests id id "d" "t" "ts" "iso" (fun _ => false) (.error ())
        [sampleStored]).displayed
      = processRideRequests "d" "t" [sampleStored]
  ∧ (sampleStored.status = none →
      (processRideRequest "d" "t" sampleStored).status = "pending") :=
  ⟨(c2_fallback_normalizes_cache id id "d" "t" "ts" "iso" (fun _ => false)
      [sampleStored]).1,
    ((c2_fallback_normalizes_cache id id "d" "t" "ts" "iso" (fun _ => false)
      [sampleStored]).2.2 sampleStored).2.2.2.2.2.2.1⟩

/-- C3: an accept/decline/complete action on id X preserves the list length,
sets the status of every entry whose id is X to the action's target status
(accept → accepted, decline → declined, complete → completed), and leaves
every entry whose id differs from X unchanged. -/
theorem c3_action_touches_only_target (requests : List LocalRideRequest)
    (X : String) (a : RideAction) :
    (applyRideAction X a requests).length = requests.length
  ∧ (∀ i : Nat, (applyRideAction X a requests)[i]? =
      (requests[i]?).map fun r =>
        if r.id = X then { r with status := actionToStatus a } else r)
  ∧ (∀ (i : Nat) (r : LocalRideRequest), requests[i]? = some r → r.id ≠ X →
      (applyRideAction X a requests)[i]? = some r)
  ∧ (∀ (i : Nat) (r : LocalRideRequest), requests[i]? = some r → r.id = X →
      (applyRideAction X a requests)[i]?
        = some { r with status := actionToStatus a })
  ∧ actionToStatus .accept = "accepted"
  ∧ actionToStatus .decline = "declined"
  ∧ actionToStatus .complete = "completed" := by
  refine ⟨List.length_map _ _, fun i => ?_, fun i r hr hne => ?_,
    fun i r hr he => ?_, rfl, rfl, rfl⟩
  · simp [applyRideAction, List.getElem?_map]
  · simp [applyRideAction, List.getElem?_map, hr, hne]
  · simp [applyRideAction, List.getElem?_map, hr, he]

/-- C3 witness: the theorem instantiated at a two-element list; the entry
with the other id is untouched. -/
theorem c3_action_touches_only_target_witness :
    ([sampleRequest, { sampleRequest with id := "2" }] :
        List LocalRideRequest)[1]? = some { sampleRequest with id := "2" }
  ∧ ({ sampleRequest with id := "2" } : LocalRideRequest).id ≠ "1"
  ∧ (applyRideAction "1" .accept
      [sampleRequest, { sampleRequest with id := "2" }])[1]?
      = some { sampleRequest with id := "2" } :=
  ⟨rfl, by simp [sampleRequest],
    (c3_action_touches_only_target
        [sampleRequest, { sampleRequest with id := "2" }] "1" .accept).2.2.1 1
      { sampleRequest with id := "2" } rfl (by simp [sampleRequest])⟩

/-- C4 counterexample: the claim says the remote-to-local status mapping
never produces "declined" for any remote input, but `validateStatus` maps
the input "declined" to "declined" (Driver.tsx line 46), so the universal
statement is false. -/
theorem c4_counterexample_validate_declined :
    validateStatus "declined" = "declined"
  ∧ ¬ (∀ s : String, validateStatus s ≠ "declined") :=
  ⟨rfl, fun h => h "declined" rfl⟩

/-- C4 amended: mapping a local status to the remote form sends "declined"
to "rejected" and every other status to itself, in both the backfill insert
and the action update; the remote-to-local mapping produces "declined" only
for the exact remote input "declined" (never for "rejected" or any other
string of the remote enumeration); hence local→remote→local sends
"declined" to "pending", not back to "declined". -/
theorem c4_status_mapping_asymmetry (nowISO : String) (r : LocalRideRequest)
    (a : RideAction) (s : String) :
    (mkDbInsert nowISO r).status
      = (if r.status = "declined" then "rejected" else r.status)
  ∧ actionToDbStatus a
      = (if actionToStatus a = "declined" then "rejected" else actionToStatus a)
  ∧ (validateStatus s = "declined" → s = "declined")
  ∧ validateStatus "rejected" = "pending"
  ∧ validateStatus
      (if ("declined" : String) = "declined" then "rejected" else "declined")
      = "pending" := by
  refine ⟨rfl, ?_, validateStatus_eq_declined s, by decide, by decide⟩
  cases a <;> decide

/-- C4 witness: the amended theorem instantiated at the decline action and
the remote status "rejected". -/
theorem c4_status_mapping_asymmetry_witness :
    actionToDbStatus .decline
      = (if actionToStatus .decline = "declined" then "rejected"
          else actionToStatus .decline)
  ∧ (validateStatus "rejected" = "declined" → ("rejected" : String) = "declined") :=
  ⟨(c4_status_mapping_asymmetry "iso" sampleRequest .decline "rejected").2.1,
    (c4_status_mapping_asymmetry "iso" sampleRequest .decline "rejected").2.2.1⟩

/-- C5: after falling back to the local cache, when the normalized entries
have pairwise distinct ids the load operation issues exactly one insert per
entry whose id does not yet exist remotely — each insert derived from its
entry (same id, driver_id null, status mapped "declined" → "rejected") —
and an entry whose id already exists remotely causes no insert. -/
theorem c5_backfill_inserts_missing_ids (formatDate formatTime : String → String)
    (nowDate nowTime nowTs nowISO : String) (remoteHasId : String → Bool)
    (stored : List StoredRideRequest)
    (hnd : ((processRideRequests nowDate nowTime stored).map
        fun r => r.id).Nodup) :
    (loadRideRequests formatDate formatTime nowDate nowTime nowTs nowISO
        remoteHasId (.error ()) stored).inserts
      = (((processRideRequests nowDate nowTime stored).filter
          fun r => !remoteHasId r.id).map (mkDbInsert nowISO))
  ∧ (∀ r : LocalRideRequest,
      (mkDbInsert nowISO r).id = r.id
      ∧ (mkDbInsert nowISO r).driver_id = none
      ∧ (mkDbInsert nowISO r).status
          = (if r.status = "declined" then "rejected" else r.status))
  ∧ ∀ r ∈ processRideRequests nowDate nowTime stored, remoteHasId r.id = true →
      ∀ ins ∈ (loadRideRequests formatDate formatTime nowDate nowTime nowTs
          nowISO remoteHasId (.error ()) stored).inserts,
        ins.id ≠ r.id := by
  have hinserts : (loadRideRequests formatDate formatTime nowDate nowTime nowTs
      nowISO remoteHasId (.error ()) stored).inserts
      = backfillLoop nowISO (processRideRequests nowDate nowTime stored)
          remoteHasId := by
    by_cases hlen : (processRideRequests nowDate nowTime stored).length > 0
    · simp [loadRideRequests, hlen]
    · have hnil : processRideRequests nowDate nowTime stored = [] :=
        List.eq_nil_of_length_eq_zero (Nat.eq_zero_of_not_pos hlen)
      simp [loadRideRequests, hlen, hnil, backfillLoop]
  refine ⟨?_, fun r => ⟨rfl, rfl, rfl⟩, ?_⟩
  · rw [hinserts]
    exact backfillLoop_eq_filter nowISO _ remoteHasId hnd
  · intro r _ hhas ins hins
    rw [hinserts] at hins
    exact backfillLoop_skips_existing nowISO _ remoteHasId r.id hhas ins hins

/-- C5 witness: the theorem instantiated at a one-entry cache whose id is
not yet remote, so exactly its insert is issued. -/
theorem c5_backfill_inserts_missing_ids_witness :
    ((processRideRequests "d" "t" [sampleStored]).map fun r => r.id).Nodup
  ∧ (loadRideRequests id id "d" "t" "ts" "iso" (fun _ => false) (.error ())
        [sampleStored]).inserts
      = (((processRideRequests "d" "t" [sampleStored]).filter
          fun r => !(fun _ => false) r.id).map (mkDbInsert "iso")) :=
  ⟨by simp [processRideRequests, processRideRequest, sampleStored],
    (c5_backfill_inserts_missing_ids id id "d" "t" "ts" "iso" (fun _ => false)
      [sampleStored]
      (by simp [processRideRequests, processRideRequest, sampleStored])).1⟩

/-- C6: remote failures never propagate — a failed remote query makes the
load operation fall back to the normalized cache rather than surface an
error, and the action operation's result (including the user-facing success
toast) is identical whether the remote update succeeded or failed. -/
theorem c6_remote_failures_swallowed (formatDate formatTime : String → String)
    (nowDate nowTime nowTs nowISO : String) (remoteHasId : String → Bool)
    (stored : List StoredRideRequest) (user : Option AuthUser) (X : String)
    (a : RideAction) (l : List LocalRideRequest)
    (upd upd' : Except Unit Unit) :
    (loadRideRequests formatDate formatTime nowDate nowTime nowTs nowISO
        remoteHasId (.error ()) stored).displayed
      = processRideRequests nowDate nowTime stored
  ∧ handleRideAction user nowISO X a l upd
      = handleRideAction user nowISO X a l upd'
  ∧ (handleRideAction user nowISO X a l upd).toastTitle
      = "Ride Request Updated"
  ∧ (handleRideAction user nowISO X a l upd).toastDescription
      = "Ride request has been " ++ actionName a ++ "ed." := by
  refine ⟨by simp [loadRideRequests], ?_, rfl, rfl⟩
  cases upd <;> cases upd' <;> rfl

/-- C7: after any accept/decline/complete action, the serialized form
written to the local cache round-trips — deserializing it reproduces the
updated in-memory list exactly, for every input list (including entries
whose optional additionalNotes field is absent). -/
theorem c7_stored_cache_roundtrips (user : Option AuthUser) (nowISO X : String)
    (a : RideAction) (l : List LocalRideRequest) (upd : Except Unit Unit) :
    decodeRequests (handleRideAction user nowISO X a l upd).storedJson
      = some (handleRideAction user nowISO X a l upd).updatedRequests :=
  decodeRequests_encodeRequests _

/-- C8 counterexample: with no signed-in user (a possible session state),
accept("1") on the one-element pending list issues a remote update whose
driver_id is null, refuting "non-null driver_id for every session state of
the current user". -/
theorem c8_counterexample_null_driver_id :
    sampleRequest.id = "1"
  ∧ sampleRequest.status = "pending"
  ∧ (handleRideAction none "iso" "1" .accept [sampleRequest]
      (.ok ())).dbUpdate.status = "accepted"
  ∧ (handleRideAction none "iso" "1" .accept [sampleRequest]
      (.ok ())).dbUpdate.driver_id = none :=
  ⟨rfl, rfl, rfl, rfl⟩

/-- C8 amended: accept("1") on the list [{id:"1", status:"pending", ...}]
yields the entry with id "1" and status "accepted", and the remote update
for id "1" carries status "accepted" and driver_id equal to the current
user's id when a user with a non-empty id is signed in — and null when no
user is signed in. -/
theorem c8_accept_updates_entry_and_remote (user : Option AuthUser)
    (nowISO : String) (r : LocalRideRequest) (upd : Except Unit Unit)
    (hid : r.id = "1") (hst : r.status = "pending") :
    (handleRideAction user nowISO "1" .accept [r] upd).updatedRequests
      = [{ r with status := "accepted" }]
  ∧ ({ r with status := "accepted" } : LocalRideRequest).id = "1"
  ∧ (handleRideAction user nowISO "1" .accept [r] upd).dbUpdate.status
      = "accepted"
  ∧ (handleRideAction user nowISO "1" .accept [r] upd).dbUpdate.filterId = "1"
  ∧ (∀ u : AuthUser, user = some u → u.id ≠ "" →
      (handleRideAction user nowISO "1" .accept [r] upd).dbUpdate.driver_id
        = some u.id)
  ∧ (user = none →
      (handleRideAction user nowISO "1" .accept [r] upd).dbUpdate.driver_id
        = none) := by
  have hst' := hst
  refine ⟨?_, hid, rfl, rfl, ?_, ?_⟩
  · simp [handleRideAction, applyRideAction, hid, actionToStatus]
  · intro u hu hne
    subst hu
    simp [handleRideAction, currentDriverId, hne]
  · intro hu
    subst hu
    rfl

/-- C8 witness: the amended theorem instantiated at a signed-in user with a
non-empty id and at the concrete pending request. -/
theorem c8_accept_updates_entry_and_remote_witness :
    sampleRequest.id = "1"
  ∧ sampleRequest.status = "pending"
  ∧ (handleRideAction (some ⟨"drv", "Dana", "Lee", "dana@example.com"⟩) "iso"
      "1" .accept [sampleRequest] (.ok ())).updatedRequests
      = [{ sampleRequest with status := "accepted" }]
  ∧ (handleRideAction (some ⟨"drv", "Dana", "Lee", "dana@example.com"⟩) "iso"
      "1" .accept [sampleRequest] (.ok ())).dbUpdate.driver_id = some "drv" :=
  ⟨rfl, rfl,
    (c8_accept_updates_entry_and_remote
      (some ⟨"drv", "Dana", "Lee", "dana@example.com"⟩) "iso" sampleRequest
      (.ok ()) rfl rfl).1,
    (c8_accept_updates_entry_and_remote
      (some ⟨"drv", "Dana", "Lee", "dana@example.com"⟩) "iso" sampleRequest
      (.ok ()) rfl rfl).2.2.2.2.1 ⟨"drv", "Dana", "Lee", "dana@example.com"⟩
      rfl (by simp)⟩

/-- C9: the action's remote update carries the filter id X, the current
driver identifier and the fresh updated_at timestamp; applying it to any
remote table leaves every row whose id differs from X completely unchanged,
and rewrites exactly status, driver_id and updated_at of rows with id X. -/
theorem c9_update_scoped_to_request_id (user : Option AuthUser)
    (nowISO X : String) (a : RideAction) (l : List LocalRideRequest)
    (upd : Except Unit Unit) (table : List DbRideRequest) :
    (handleRideAction user nowISO X a l upd).dbUpdate.filterId = X
  ∧ (handleRideAction user nowISO X a l upd).dbUpdate.driver_id
      = currentDriverId user
  ∧ (handleRideAction user nowISO X a l upd).dbUpdate.updated_at = nowISO
  ∧ (∀ (i : Nat) (row : DbRideRequest), table[i]? = some row → row.id ≠ X →
      (applyDbUpdate (handleRideAction user nowISO X a l upd).dbUpdate
        table)[i]? = some row)
  ∧ (∀ (i : Nat) (row : DbRideRequest), table[i]? = some row → row.id = X →
      (applyDbUpdate (handleRideAction user nowISO X a l upd).dbUpdate
        table)[i]?
        = some { row with
            status := actionToDbStatus a
            driver_id := currentDriverId user
            updated_at := some nowISO }) := by
  refine ⟨rfl, rfl, rfl, ?_, ?_⟩
  · intro i row hr hne
    simp [applyDbUpdate, List.getElem?_map, handleRideAction, hr, hne]
  · intro i row hr he
    simp [applyDbUpdate, List.getElem?_map, handleRideAction, hr, he]

/-- C9 witness: the theorem instantiated at a one-row table whose row has a
different id, so the update leaves it unchanged. -/
theorem c9_update_scoped_to_request_id_witness :
    ([sampleDbRow] : List DbRideRequest)[0]? = some sampleDbRow
  ∧ sampleDbRow.id ≠ "1"
  ∧ (applyDbUpdate (handleRideAction none "iso" "1" .accept [] (.ok
      ())).dbUpdate [sampleDbRow])[0]? = some sampleDbRow :=
  ⟨rfl, by simp [sampleDbRow],
    (c9_update_scoped_to_request_id none "iso" "1" .accept [] (.ok ())
      [sampleDbRow]).2.2.2.1 0 sampleDbRow rfl (by simp [sampleDbRow])⟩

/-- C10: after the load operation (either branch) every displayed entry's
status lies in the closed set {pending, accepted, completed, declined};
the accept/decline/complete actions preserve this invariant; and a remote
row whose status is "rejected" (or any other string outside the set)
appears locally with status "pending". -/
theorem c10_status_closed_set_invariant (formatDate formatTime : String → String)
    (nowDate nowTime nowTs nowISO : String) (remoteHasId : String → Bool)
    (queryResult : Except Unit (List DbRideRequest))
    (stored : List StoredRideRequest) (X : String) (a : RideAction)
    (l : List LocalRideRequest) :
    (∀ r ∈ (loadRideRequests formatDate formatTime nowDate nowTime nowTs
        nowISO remoteHasId queryResult stored).displayed,
      isValidStatus r.status = true)
  ∧ ((∀ r ∈ l, isValidStatus r.status = true) →
      ∀ r ∈ applyRideAction X a l, isValidStatus r.status = true)
  ∧ (∀ row : DbRideRequest, row.status = "rejected" →
      (formatDbRequest formatDate formatTime nowTs row).status = "pending")
  ∧ (∀ s : String, isValidStatus s = false → validateStatus s = "pending") := by
  have hproc : ∀ r ∈ processRideRequests nowDate nowTime stored,
      isValidStatus r.status = true := by
    intro r hm
    rcases List.mem_map.mp hm with ⟨req, _, he⟩
    rw [← he]
    exact validateStatus_mem _
  refine ⟨?_, ?_, ?_, ?_⟩
  · intro r hr
    cases queryResult with
    | error e =>
      simp only [loadRideRequests] at hr
      exact hproc r hr
    | ok rows =>
      by_cases hlen : rows.length > 0
      · simp only [loadRideRequests, hlen, if_true] at hr
        rcases List.mem_map.mp hr with ⟨row, _, he⟩
        rw [← he]
        exact validateStatus_mem row.status
      · simp only [loadRideRequests, hlen, if_false] at hr
        exact hproc r hr
  · intro hl r hr
    rcases List.mem_map.mp hr with ⟨x, hx, he⟩
    rw [← he]
    by_cases hxid : x.id = X
    · simp only [hxid, if_true]
      cases a <;> decide
    · simp only [hxid, if_false]
      exact hl x hx
  · intro row h
    show validateStatus row.status = "pending"
    rw [h]
    decide
  · intro s h
    simp only [isValidStatus, Bool.or_eq_false_iff,
      decide_eq_false_iff_not] at h
    obtain ⟨⟨⟨_, h2⟩, h3⟩, h4⟩ := h
    simp [validateStatus, h2, h3, h4]

/-- C10 witness: the action-preservation part instantiated at a valid
one-element list. -/
theorem c10_status_closed_set_invariant_witness :
    (∀ r ∈ ([sampleRequest] : List LocalRideRequest),
      isValidStatus r.status = true)
  ∧ ∀ r ∈ applyRideAction "1" .decline [sampleRequest],
      isValidStatus r.status = true :=
  ⟨by intro r hr; simp at hr; subst hr; decide,
    (c10_status_closed_set_invariant id id "d" "t" "ts" "iso" (fun _ => false)
      (.error ()) [] "1" .decline [sampleRequest]).2.1
      (by intro r hr; simp at hr; subst hr; decide)⟩

end Driver
